import Mathlib

/-!
Verification development for the World Happiness dashboard (`app.py`).

The source is a Shiny-for-Python application over a pandas table.  The
embedding models a table as a `List Row`; a pandas `NaN` entry is modelled
as `none` (all numeric columns are `Option ℚ`), since every behaviour the
development studies treats `NaN` only through "comparisons are false" /
"skipped in aggregations" / "fillna replaces it".  Rational numbers stand
for the source's floating-point values; the facts proved here are exact
identities that do not depend on rounding.
-/

namespace HappinessApp

/-- The numeric columns of the dataset that the application reads
(`Ladder score`, `Logged GDP per capita`, `Social support`,
`Healthy life expectancy`, `Freedom to make life choices`, `Generosity`,
`Perceptions of corruption`). -/
inductive NumCol : Type
  | ladder
  | gdp
  | social
  | health
  | freedom
  | generosity
  | corruption
deriving DecidableEq, Repr

/-- One row of the table: `Country name` plus the numeric columns.
`none` models a missing (`NaN`) entry. -/
structure Row where
  countryName : Option String
  ladderScore : Option ℚ
  loggedGDP : Option ℚ
  socialSupport : Option ℚ
  healthyLife : Option ℚ
  freedom : Option ℚ
  generosity : Option ℚ
  corruption : Option ℚ
deriving DecidableEq, Repr, Inhabited

/-- Column accessor: `df[col]` for one row. -/
def numGet (c : NumCol) (r : Row) : Option ℚ :=
  match c with
  | NumCol.ladder => r.ladderScore
  | NumCol.gdp => r.loggedGDP
  | NumCol.social => r.socialSupport
  | NumCol.health => r.healthyLife
  | NumCol.freedom => r.freedom
  | NumCol.generosity => r.generosity
  | NumCol.corruption => r.corruption

/-- The present (non-`NaN`) entries of a column. -/
def presentVals (xs : List (Option ℚ)) : List ℚ :=
  xs.filterMap id

/-- Arithmetic mean of a list (0 on the empty list; callers guard). -/
def meanQ (xs : List ℚ) : ℚ :=
  if xs.length = 0 then 0 else xs.sum / xs.length

/-- `Series.mean()` with pandas `skipna` semantics: the mean of the
present values, `NaN` (`none`) when no value is present. -/
def colMean (xs : List (Option ℚ)) : Option ℚ :=
  if (presentVals xs).length = 0 then none else some (meanQ (presentVals xs))

/-- `fillna`: replace a missing entry by the fill value `m`. -/
def fillVal (m : Option ℚ) (x : Option ℚ) : Option ℚ :=
  match x with
  | some q => some q
  | none => m

/-- One row of `fillna`: every numeric column of the row gets its missing
entry replaced by the fill value `m c` of that column. -/
def fillRow (m : NumCol → Option ℚ) (r : Row) : Row :=
  { countryName := r.countryName
    ladderScore := fillVal (m NumCol.ladder) r.ladderScore
    loggedGDP := fillVal (m NumCol.gdp) r.loggedGDP
    socialSupport := fillVal (m NumCol.social) r.socialSupport
    healthyLife := fillVal (m NumCol.health) r.healthyLife
    freedom := fillVal (m NumCol.freedom) r.freedom
    generosity := fillVal (m NumCol.generosity) r.generosity
    corruption := fillVal (m NumCol.corruption) r.corruption }

/-- `load_data` (app.py:22-34): the CSV is parsed into a table and every
numeric column has its missing entries replaced by that column's mean over
present values (`df[numeric_cols].fillna(df[numeric_cols].mean())`).
The column-name whitespace strip is schema-level and invisible in a record
embedding.  The CSV parse itself is the pandas library; this function
models the imputation applied to the parsed table, which is the part the
source contributes. -/
def loadData (df : List Row) : List Row :=
  df.map (fillRow fun c => colMean (df.map (numGet c)))

/-- `get_cluster_names` (app.py:60-68): fixed dictionary for ids 0-3,
fallback f-string `"Cluster {id}"` otherwise.  Cluster ids produced by the
clustering routine are natural numbers. -/
def getClusterNames (clusterId : Nat) : String :=
  match clusterId with
  | 0 => "Very Happy"
  | 1 => "Happy"
  | 2 => "Moderate"
  | 3 => "Struggling"
  | n => "Cluster " ++ toString n

/-- Insertion into a sorted list, for the sorts pandas performs inside
`median`/`quantile`. -/
def insertSorted (x : ℚ) : List ℚ → List ℚ
  | [] => [x]
  | y :: ys => if x ≤ y then x :: y :: ys else y :: insertSorted x ys

/-- Insertion sort (ascending). -/
def sortQ (xs : List ℚ) : List ℚ :=
  xs.foldr insertSorted []

/-- `Series.median()` over the present values: middle element for odd
length, mean of the two middle elements for even length, `NaN` for an
empty series. -/
def medianQ (xs : List ℚ) : Option ℚ :=
  if xs.length = 0 then none
  else if xs.length % 2 = 1 then some ((sortQ xs).getD (xs.length / 2) 0)
  else some (((sortQ xs).getD (xs.length / 2 - 1) 0 + (sortQ xs).getD (xs.length / 2) 0) / 2)

/-- `Series.quantile(q)` with pandas' default linear interpolation: with
`s` the sorted present values and `pos = q * (n - 1)`, the result is
`s[⌊pos⌋] + (pos - ⌊pos⌋) * (s[⌊pos⌋ + 1] - s[⌊pos⌋])`; `NaN` on an empty
series. -/
def quantileQ (q : ℚ) (xs : List ℚ) : Option ℚ :=
  if xs.length = 0 then none
  else
    some ((sortQ xs).getD (Int.floor (q * ((xs.length : ℚ) - 1))).toNat 0 +
      (q * ((xs.length : ℚ) - 1) - ((Int.floor (q * ((xs.length : ℚ) - 1))).toNat : ℚ)) *
        ((sortQ xs).getD ((Int.floor (q * ((xs.length : ℚ) - 1))).toNat + 1)
            ((sortQ xs).getD (Int.floor (q * ((xs.length : ℚ) - 1))).toNat 0) -
          (sortQ xs).getD (Int.floor (q * ((xs.length : ℚ) - 1))).toNat 0))

/-- `Series.std()` is the sample standard deviation (`ddof = 1`),
`sqrt (Σ (x - mean)² / (n - 1))`; the square root of a rational is
irrational in general, so the development carries its square, the sample
variance.  `NaN` (`none`) when fewer than two values are present. -/
def sampleVarQ (xs : List ℚ) : Option ℚ :=
  if xs.length ≤ 1 then none
  else some ((xs.map (fun x => (x - meanQ xs) ^ 2)).sum / ((xs.length : ℚ) - 1))

/-- `Series.min()` over present values, `NaN` on empty. -/
def minQ (xs : List ℚ) : Option ℚ :=
  match xs with
  | [] => none
  | x :: ys => some (ys.foldl min x)

/-- `Series.max()` over present values, `NaN` on empty. -/
def maxQ (xs : List ℚ) : Option ℚ :=
  match xs with
  | [] => none
  | x :: ys => some (ys.foldl max x)

/-- The record returned by `get_summary_stats`; `stdSq` carries the square
of the source's `std` field (see `sampleVarQ`).  `minV` / `maxV` are the
source's `min` / `max`. -/
structure SummaryStats where
  count : Nat
  mean : Option ℚ
  median : Option ℚ
  stdSq : Option ℚ
  minV : Option ℚ
  maxV : Option ℚ
  q25 : Option ℚ
  q75 : Option ℚ
deriving DecidableEq, Repr

/-- `get_summary_stats` (app.py:72-84): statistics of the `Ladder score`
column.  `count` is `len(df)` (all rows); the other aggregations skip
missing entries and are `NaN` (`none`) when nothing is present.  There is
no error path: the function totally returns a record on any input,
including the empty table. -/
def getSummaryStats (df : List Row) : SummaryStats :=
  { count := df.length
    mean := colMean (df.map (numGet NumCol.ladder))
    median := medianQ (presentVals (df.map (numGet NumCol.ladder)))
    stdSq := sampleVarQ (presentVals (df.map (numGet NumCol.ladder)))
    minV := minQ (presentVals (df.map (numGet NumCol.ladder)))
    maxV := maxQ (presentVals (df.map (numGet NumCol.ladder)))
    q25 := quantileQ (1 / 4) (presentVals (df.map (numGet NumCol.ladder)))
    q75 := quantileQ (3 / 4) (presentVals (df.map (numGet NumCol.ladder))) }

/-- One bound check of a pandas comparison filter: `x >= lo` / `x <= hi`
on a possibly-`NaN` value; every comparison against `NaN` is false. -/
def inRangeB (x : Option ℚ) (lo hi : ℚ) : Bool :=
  match x with
  | none => false
  | some q => decide (lo ≤ q) && decide (q ≤ hi)

/-- `filtered_data` (app.py:336-349): keep the rows whose `Ladder score`
lies in the happiness range, then the rows whose `Logged GDP per capita`
lies in the GDP range (both comparisons are `>=` / `<=`, closed). -/
def filteredData (df : List Row) (hLo hHi gLo gHi : ℚ) : List Row :=
  (df.filter fun r => inRangeB r.ladderScore hLo hHi).filter fun r =>
    inRangeB r.loggedGDP gLo gHi

/-- Python `str.lower()` on one character, modelled on the ASCII letters
(country names and search terms in the source are ASCII). -/
def lowerChar (c : Char) : Char := c.toLower

/-- Python `str.lower()` on a string. -/
def lowerStr (s : String) : String :=
  String.mk (s.toList.map lowerChar)

/-- The characters Python's `re` treats as metacharacters (Char.ofNat 123
and 125 are the curly braces). -/
def isMetaChar (c : Char) : Bool :=
  c ∈ ['.', '^', '$', '*', '+', '?', Char.ofNat 123, Char.ofNat 125,
    '[', ']', '\\', '|', '(', ')']

/-- Whether pattern character `p` matches text character `c` in a regular
expression: `.` matches any character, a literal matches itself. -/
def patCharMatches (p c : Char) : Bool :=
  p = '.' || p = c

/-- Whether the pattern matches a prefix of the text (regex semantics for
patterns built from literals and `.`). -/
def matchesAt : List Char → List Char → Bool
  | [], _ => true
  | _ :: _, [] => false
  | p :: ps, c :: cs => patCharMatches p c && matchesAt ps cs

/-- `re.search`: the pattern matches at some position of the text.
`Series.str.contains(pat)` defaults to `regex=True` and is `re.search`
under the hood; this models it for patterns built from literal characters
and the `.` wildcard (other metacharacters are treated as literals, so
statements about general regex behaviour are restricted to patterns with
no metacharacter, where this model is exact). -/
def reSearch (pat : List Char) : List Char → Bool
  | [] => matchesAt pat []
  | c :: cs => matchesAt pat (c :: cs) || reSearch pat cs

/-- Literal (non-regex) prefix test, used to state what plain substring
containment would be. -/
def literalAt : List Char → List Char → Bool
  | [], _ => true
  | _ :: _, [] => false
  | a :: as, b :: bs => a = b && literalAt as bs

/-- Literal substring occurrence: stated from the claim's words
("the country name contains the search string"), to compare with the
source's regex-based `reSearch`. -/
def containsSub (needle : List Char) : List Char → Bool
  | [] => literalAt needle []
  | c :: cs => literalAt needle (c :: cs) || containsSub needle cs

/-- The row predicate of `searched_data`:
`df['Country name'].str.lower().str.contains(search_term, na=False)` —
a missing name is a non-match (`na=False`), otherwise the lowered name is
searched for the lowered term as a regular expression. -/
def nameMatches (search : String) (nm : Option String) : Bool :=
  match nm with
  | none => false
  | some s => reSearch (lowerStr search).toList (lowerStr s).toList

/-- `searched_data` (app.py:382-391): when the search string is non-empty
(Python truthiness of `input.country_search()`), filter by `nameMatches`;
either way return the first 20 rows (`df.head(20)`). -/
def searchedData (df : List Row) (search : String) : List Row :=
  (if search = "" then df else df.filter fun r => nameMatches search r.countryName).take 20

/-- The five default feature columns of `perform_clustering`
(app.py:43-45), used when the caller passes `features=None`. -/
def defaultFeatures : List NumCol :=
  [NumCol.ladder, NumCol.gdp, NumCol.social, NumCol.health, NumCol.freedom]

/-- One selected column after `perform_clustering`'s own imputation
`X = df[features].fillna(df[features].mean())` — the mean is over the
*current* table, not the base table.  A column with no present value at
all would stay `NaN` in the source (degenerate input the app never
produces); it is read as 0 here so the model stays total. -/
def filledCol (df : List Row) (c : NumCol) : List ℚ :=
  (df.map (numGet c)).map fun x => (fillVal (colMean (df.map (numGet c))) x).getD 0

/-- Population variance (`ddof = 0`), the variance `StandardScaler` uses. -/
def popVarQ (xs : List ℚ) : ℚ :=
  meanQ (xs.map fun x => (x - meanQ xs) ^ 2)

/-- A standardized column, represented exactly: `StandardScaler` maps an
entry `x` to `(x - mean) / sqrt var`; the square root leaves ℚ, so the
column is carried as the numerators `x - mean` together with `var`.
Squared Euclidean distances between scaled rows are then the rational
`Σ (numerator difference)² / var` (a zero-variance column gets scale 1 in
`StandardScaler`, and its numerators are all 0, so it contributes 0). -/
structure ScaledCol where
  numer : List ℚ
  varQ : ℚ
deriving DecidableEq, Repr

/-- Standardize one column (see `ScaledCol`). -/
def scaleCol (xs : List ℚ) : ScaledCol :=
  ⟨xs.map fun x => x - meanQ xs, popVarQ xs⟩

/-- Squared Euclidean distance between two scaled rows given the
per-column variances (the zero-variance divisor is 1, matching
`StandardScaler`'s handling of constant columns). -/
def sqDistW (vars : List ℚ) (p q : List ℚ) : ℚ :=
  (List.zipWith (fun d v => d / (if v = 0 then 1 else v))
    (List.zipWith (fun a b => (a - b) ^ 2) p q) vars).sum

/-- A deterministic pseudo-random step (linear congruential generator),
standing for the seeded random number generator the clustering routine
derives from `random_state`. -/
def lcg (s : Nat) : Nat :=
  (s * 1103515245 + 12345) % 2147483648

/-- Modelled from the spec: the seeded initialization of the third-party
clustering routine ("deterministic-seeded iterative relocation algorithm
(fixed random seed, ...)") — `k` pseudo-random row indices drawn from the
seed.  The exact draw sequence of the library is not in the repository;
only its determinism in the seed matters to any claim. -/
def initIdx : Nat → Nat → Nat → List Nat
  | 0, _, _ => []
  | k + 1, n, s => lcg s % n :: initIdx k n (lcg s)

/-- Index of the least element (ties to the smallest index), over a list
of distances; the scan state is the best index and distance so far. -/
def argminAux : List ℚ → Nat → Nat → ℚ → Nat
  | [], _, best, _ => best
  | d :: ds, i, best, bestD =>
    if d < bestD then argminAux ds (i + 1) i d else argminAux ds (i + 1) best bestD

/-- Index of the least element of a nonempty list (0 on the empty list). -/
def argmin : List ℚ → Nat
  | [] => 0
  | d :: ds => argminAux ds 1 0 d

/-- Assignment step: each point goes to its nearest center. -/
def assignAll (vars : List ℚ) (centers : List (List ℚ)) (pts : List (List ℚ)) : List Nat :=
  pts.map fun p => argmin (centers.map (sqDistW vars p))

/-- Componentwise sum of two vectors. -/
def vecAdd (p q : List ℚ) : List ℚ :=
  List.zipWith (· + ·) p q

/-- Mean of a nonempty set of points; an empty cluster keeps its old
center. -/
def centroid (old : List ℚ) : List (List ℚ) → List ℚ
  | [] => old
  | p :: ps => (ps.foldl vecAdd p).map fun x => x / ((ps.length : ℚ) + 1)

/-- Update step: each center becomes the mean of its assigned points. -/
def updateCenters (k : Nat) (centers : List (List ℚ)) (pts : List (List ℚ))
    (asg : List Nat) : List (List ℚ) :=
  (List.range k).map fun j =>
    centroid (centers.getD j [])
      ((pts.zip asg).filterMap fun pa => if pa.2 = j then some pa.1 else none)

/-- Modelled from the spec: the iterative relocation loop of the
third-party clustering routine, fuelled by its iteration cap; stops when
the centers are stable. -/
def lloyd (vars : List ℚ) (pts : List (List ℚ)) (k : Nat) :
    Nat → List (List ℚ) → List Nat
  | 0, centers => assignAll vars centers pts
  | fuel + 1, centers =>
    if updateCenters k centers pts (assignAll vars centers pts) = centers then
      assignAll vars centers pts
    else
      lloyd vars pts k fuel (updateCenters k centers pts (assignAll vars centers pts))

/-- Within-cluster sum of squared distances of an assignment. -/
def inertiaOf (vars : List ℚ) (pts : List (List ℚ)) (centers : List (List ℚ))
    (asg : List Nat) : ℚ :=
  ((pts.zip asg).map fun pa => sqDistW vars pa.1 (centers.getD pa.2 [])).sum

/-- One seeded clustering run: seeded initial centers, relocation loop
(the source's iteration cap is 300), assignment plus its inertia. -/
def kmeansRun (vars : List ℚ) (pts : List (List ℚ)) (k : Nat) (seed : Nat) :
    List Nat × ℚ :=
  if pts.length = 0 then ([], 0)
  else
    let centers := (initIdx k pts.length seed).map fun i => pts.getD i []
    let asg := lloyd vars pts k 300 centers
    (asg, inertiaOf vars pts (updateCenters k centers pts asg) asg)

/-- Keep the run of least inertia (first wins ties). -/
def bestRunAux : List (List Nat × ℚ) → List Nat → ℚ → List Nat
  | [], a, _ => a
  | r :: rs, a, v => if r.2 < v then bestRunAux rs r.1 r.2 else bestRunAux rs a v

/-- Best of a list of runs. -/
def bestRun : List (List Nat × ℚ) → List Nat
  | [] => []
  | r :: rs => bestRunAux rs r.1 r.2

/-- Modelled from the spec: `KMeans(n_clusters, random_state, n_init)` of
the third-party library — "multiple restarts, lowest-inertia result kept",
seeded deterministically.  When `random_state` is `none`, the ambient
randomness `envSeed` (fresh on every call) seeds the runs; when it is
`some s`, the seed is `s` and the ambient state is ignored.  The source
always passes `random_state=42`. -/
def kmeansFitPredict (nClusters : Nat) (randomState : Option Nat) (nInit : Nat)
    (envSeed : Nat) (vars : List ℚ) (pts : List (List ℚ)) : List Nat :=
  bestRun ((List.range nInit).map fun i =>
    kmeansRun vars pts nClusters ((match randomState with
      | some s => s
      | none => envSeed) + i))

/-- The result of `perform_clustering`: the per-row cluster assignment and
the standardized feature matrix (carried as row-major numerators plus
per-column variances, see `ScaledCol`). -/
structure ClusterResult where
  assignments : List Nat
  scaledRows : List (List ℚ)
  colVars : List ℚ
deriving DecidableEq, Repr

/-- `perform_clustering` (app.py:41-58): default feature list when
`features is None`; per-column imputation with the current table's means;
standardization; `KMeans(n_clusters=n_clusters, random_state=42,
n_init=10).fit_predict`.  `envSeed` is the ambient randomness the library
would consume if no `random_state` were fixed; the source fixes it to 42,
which is what makes the call a function of its data arguments. -/
def performClustering (envSeed : Nat) (df : List Row) (nClusters : Nat)
    (features : Option (List NumCol)) : ClusterResult :=
  let feats := features.getD defaultFeatures
  let cols := feats.map fun c => scaleCol (filledCol df c)
  let pts := (List.range df.length).map fun i => cols.map fun sc => sc.numer.getD i 0
  ⟨kmeansFitPredict nClusters (some 42) 10 envSeed (cols.map ScaledCol.varQ) pts,
    pts, cols.map ScaledCol.varQ⟩

/-- The checkbox-key-to-column dictionary `feature_map` of `clustered_data`
(app.py:357-363). -/
def featureMap (k : String) : Option NumCol :=
  if k = "ladder" then some NumCol.ladder
  else if k = "gdp" then some NumCol.gdp
  else if k = "social" then some NumCol.social
  else if k = "health" then some NumCol.health
  else if k = "freedom" then some NumCol.freedom
  else none

/-- The result of `clustered_data`: the table rows each paired with their
`Cluster` id and `Cluster_Name`, the scaled matrix, and the selected
feature columns. -/
structure ClusteredOut where
  rows : List (Row × Nat × String)
  scaledRows : List (List ℚ)
  colVars : List ℚ
  selFeatures : List NumCol
deriving DecidableEq, Repr

/-- `clustered_data` (app.py:351-380): map the checkbox keys through
`feature_map` (unknown keys dropped), fall back to `["Ladder score"]` when
nothing remains, run `perform_clustering` on the filtered table, and
attach the `Cluster` / `Cluster_Name` columns. -/
def clusteredData (envSeed : Nat) (dfFiltered : List Row)
    (clusterFeatureKeys : List String) (nClusters : Nat) : ClusteredOut :=
  let sf := if clusterFeatureKeys.filterMap featureMap = [] then [NumCol.ladder]
    else clusterFeatureKeys.filterMap featureMap
  let res := performClustering envSeed dfFiltered nClusters (some sf)
  ⟨(dfFiltered.zip res.assignments).map fun ra => (ra.1, ra.2, getClusterNames ra.2),
    res.scaledRows, res.colVars, sf⟩

/-- Modelled from the spec: an input signal of the Reactive View Graph
(§4.4) with its generation stamp ("a version counter incremented whenever
a signal or view's value changes").  The reactive caching machinery lives
in the UI framework, not in the repository's source, so it is modelled
from the spec's own design. -/
structure Signal (α : Type) where
  val : α
  gen : Nat
deriving DecidableEq, Repr

/-- Modelled from the spec: writing a signal — staleness is "by
value-equality, not merely by being touched", so writing an equal value
leaves the generation unchanged. -/
def setSignal {α : Type} [DecidableEq α] (s : Signal α) (v : α) : Signal α :=
  if v = s.val then s else ⟨v, s.gen + 1⟩

/-- Modelled from the spec: a view's cache slot — "a generation stamp
matching the current generation of every upstream dependency" together
with the cached value, empty while Stale. -/
structure CalcCell (β : Type) where
  cached : Option (Nat × β)
deriving DecidableEq, Repr

/-- Modelled from the spec: a demand-driven read of a view whose
computation is `f` over the (combined) upstream value.  Returns the value,
the new cache slot, and how many times the underlying computation ran
during this read (0 or 1): a hit returns the cached value with no
recomputation; otherwise the view recomputes once and stamps the cache
with the current upstream generation. -/
def readCalc {α β : Type} (f : α → β) (s : Signal α) (c : CalcCell β) :
    β × CalcCell β × Nat :=
  match c.cached with
  | some (g, b) => if g = s.gen then (b, c, 0) else (f s.val, ⟨some (s.gen, f s.val)⟩, 1)
  | none => (f s.val, ⟨some (s.gen, f s.val)⟩, 1)

/-- A step of a session trace: write an upstream input or read the view. -/
inductive ViewOp (α : Type)
  | setU (v : α)
  | read
deriving DecidableEq, Repr

/-- Total number of times the view's computation runs along a trace of
writes and reads. -/
def runOps {α β : Type} [DecidableEq α] (f : α → β) :
    List (ViewOp α) → Signal α → CalcCell β → Nat
  | [], _, _ => 0
  | ViewOp.setU v :: ops, s, c => runOps f ops (setSignal s v) c
  | ViewOp.read :: ops, s, c =>
    (readCalc f s c).2.2 + runOps f ops s (readCalc f s c).2.1

/-- A concrete row used by witnesses: happiness 7 and logged GDP 11. -/
def rowFinland : Row :=
  ⟨some "Finland", some 7, some 11, some 1, some 70, some 1, some 0, some 1⟩

/-- A concrete row used by witnesses: happiness 4 and logged GDP 6. -/
def rowChad : Row :=
  ⟨some "Chad", some 4, some 6, some 1, some 52, some 1, some 0, some 1⟩

/-- A concrete row whose name contains no dot, for the search
counterexample. -/
def rowUSA : Row :=
  ⟨some "USA", none, none, none, none, none, none, none⟩

/-- A concrete row with a missing (`NaN`) country name. -/
def rowNoName : Row :=
  ⟨none, some 5, some 9, none, none, none, none, none⟩

/-- A concrete row with a missing `Ladder score`, for the imputation
witness. -/
def rowMissingScore : Row :=
  ⟨some "Atlantis", none, some 9, none, none, none, none, none⟩

/-- A row holding only a `Ladder score`, for the statistics theorem. -/
def rowOfScore (q : ℚ) : Row :=
  ⟨none, some q, none, none, none, none, none, none⟩

/-- The table whose `Ladder score` column is the sequence 1, 2, 3, 4, 5. -/
def dfOneToFive : List Row :=
  [rowOfScore 1, rowOfScore 2, rowOfScore 3, rowOfScore 4, rowOfScore 5]

/-- A two-row base table for the reactive-trace counterexample. -/
def dfTwo : List Row :=
  [rowFinland, rowChad]

/-- The combined upstream value of the Filtered Table view: the happiness
range and the GDP range. -/
def rangeA : (ℚ × ℚ) × ℚ × ℚ :=
  ((3, 8), 7, 11)

/-- A second, different upstream value (wider ranges). -/
def rangeB : (ℚ × ℚ) × ℚ × ℚ :=
  ((0, 10), 5, 12)

/-- The Filtered Table computation as a function of its combined upstream
value, over the base table `dfTwo`. -/
def filterView (p : (ℚ × ℚ) × ℚ × ℚ) : List Row :=
  filteredData dfTwo p.1.1 p.1.2 p.2.1 p.2.2

/-- A trace whose upstream values revisit an earlier combination: write A,
read, write B, read, write A again, read. -/
def traceABA : List (ViewOp ((ℚ × ℚ) × ℚ × ℚ)) :=
  [ViewOp.setU rangeA, ViewOp.read, ViewOp.setU rangeB, ViewOp.read,
    ViewOp.setU rangeA, ViewOp.read]

/-! ## Theorems -/

/-- `inRangeB` holds exactly of a present value inside the closed
interval. -/
theorem inRangeB_iff (x : Option ℚ) (lo hi : ℚ) :
    inRangeB x lo hi = true ↔ ∃ q, x = some q ∧ lo ≤ q ∧ q ≤ hi := by
  cases x with
  | none => simp [inRangeB]
  | some q => simp [inRangeB]

/-- C5: for every ambient random state, fixed input table, fixed feature
choice and fixed cluster count, the Clustering Adapter returns the same
result — the clustering is seeded with the source's fixed
`random_state=42`, so the ambient randomness two separate calls would
otherwise consume cannot influence the assignments: repeated calls yield
identical per-row cluster assignments. -/
theorem performClustering_deterministic (e₁ e₂ : Nat) (df : List Row)
    (k : Nat) (feats : Option (List NumCol)) :
    performClustering e₁ df k feats = performClustering e₂ df k feats := rfl

/-- C4: when the checkbox keys supplied by the caller select no feature
column, `clustered_data` falls back to the single default column
`Ladder score` and the clustering it attaches is exactly the clustering of
that one column alone. -/
theorem clusteredData_empty_fallback (e : Nat) (df : List Row)
    (keys : List String) (k : Nat) (h : keys.filterMap featureMap = []) :
    (clusteredData e df keys k).selFeatures = [NumCol.ladder] ∧
    (clusteredData e df keys k).rows =
      (df.zip (performClustering e df k (some [NumCol.ladder])).assignments).map
        (fun ra => (ra.1, ra.2, getClusterNames ra.2)) ∧
    (clusteredData e df keys k).scaledRows =
      (performClustering e df k (some [NumCol.ladder])).scaledRows := by
  refine ⟨?_, ?_, ?_⟩ <;> simp [clusteredData, h]

/-- Witness for C4 at a concrete input: the key "generosity" is not a
clustering feature key, so the selection is empty and the fallback fires. -/
theorem clusteredData_empty_fallback_witness :
    ["generosity"].filterMap featureMap = [] ∧
    (clusteredData 0 [rowFinland, rowChad] ["generosity"] 2).selFeatures =
      [NumCol.ladder] :=
  ⟨by decide, (clusteredData_empty_fallback 0 [rowFinland, rowChad]
    ["generosity"] 2 (by decide)).1⟩

/-- C6: `get_cluster_names` maps ids 0-3 to the fixed names and every id
at least 4 to the generic label `"Cluster N"`; in particular id 0 gives
"Very Happy" and id 5 gives "Cluster 5". -/
theorem getClusterNames_spec :
    getClusterNames 0 = "Very Happy" ∧
    getClusterNames 1 = "Happy" ∧
    getClusterNames 2 = "Moderate" ∧
    getClusterNames 3 = "Struggling" ∧
    getClusterNames 5 = "Cluster 5" ∧
    ∀ n : Nat, 4 ≤ n → getClusterNames n = "Cluster " ++ toString n := by
  refine ⟨rfl, rfl, rfl, rfl, by decide, ?_⟩
  intro n hn
  rcases n with _ | _ | _ | _ | m
  · exact absurd hn (by decide)
  · exact absurd hn (by decide)
  · exact absurd hn (by decide)
  · exact absurd hn (by decide)
  · rfl

/-- Witness for C6: the fallback at the concrete id 5. -/
theorem getClusterNames_spec_witness :
    4 ≤ 5 ∧ getClusterNames 5 = "Cluster " ++ toString 5 :=
  ⟨by decide, getClusterNames_spec.2.2.2.2.2 5 (by decide)⟩

/-- C7: on a table whose `Ladder score` column is 1, 2, 3, 4, 5 the
statistics are count 5, mean 3, median 3, sample variance 5/2 (so the
sample standard deviation is √(5/2) ≈ 1.5811), min 1, max 5 and the
linearly interpolated quartiles q25 = 2 and q75 = 4. -/
theorem getSummaryStats_one_to_five :
    getSummaryStats dfOneToFive =
      ⟨5, some 3, some 3, some (5 / 2), some 1, some 5, some 2, some 4⟩ := by
  norm_num [getSummaryStats, dfOneToFive, rowOfScore, colMean, presentVals,
    meanQ, medianQ, quantileQ, sampleVarQ, minQ, maxQ, sortQ, insertSorted,
    numGet, SummaryStats.mk.injEq, List.filterMap_cons, List.filterMap_nil,
    List.getD_eq_getElem?_getD, Int.toNat_ofNat, List.getElem_cons_succ,
    List.getElem_cons_zero]
  simp

/-- C8 counterexample: on the empty table `get_summary_stats` does not
signal any error — its codomain has no error case at all — it returns a
record whose statistics are `NaN` (modelled `none`). -/
theorem getSummaryStats_empty_cex :
    (getSummaryStats []).mean = none ∧ (getSummaryStats []).median = none ∧
    (getSummaryStats []).stdSq = none := by
  decide

/-- C8 amended: invoked on a table with zero rows, the statistics summary
returns count 0 and `NaN`-valued (modelled `none`) mean, median, std, min,
max and quartiles, signalling no error. -/
theorem getSummaryStats_empty :
    getSummaryStats [] = ⟨0, none, none, none, none, none, none, none⟩ := by
  decide

/-- C2: a row is in the Filtered Table exactly when it is a Base Table row
whose happiness score is present and inside the closed happiness range and
whose logged GDP is present and inside the closed GDP range; hence every
excluded Base Table row violates at least one of the two closed ranges
(a missing value counts as outside every range, since every pandas
comparison against `NaN` is false). -/
theorem filteredData_mem_iff (df : List Row) (hLo hHi gLo gHi : ℚ) (r : Row) :
    r ∈ filteredData df hLo hHi gLo gHi ↔
      r ∈ df ∧ (∃ q, r.ladderScore = some q ∧ hLo ≤ q ∧ q ≤ hHi) ∧
        (∃ g, r.loggedGDP = some g ∧ gLo ≤ g ∧ g ≤ gHi) := by
  constructor
  · intro hr
    have h2 := List.of_mem_filter hr
    have hr1 := List.mem_of_mem_filter hr
    have h1 := List.of_mem_filter hr1
    exact ⟨List.mem_of_mem_filter hr1, (inRangeB_iff _ _ _).mp h1,
      (inRangeB_iff _ _ _).mp h2⟩
  · rintro ⟨hmem, hq, hg⟩
    exact List.mem_filter.mpr ⟨List.mem_filter.mpr
      ⟨hmem, (inRangeB_iff _ _ _).mpr hq⟩, (inRangeB_iff _ _ _).mpr hg⟩

/-- Witness for C2 at concrete inputs: with happiness range [3, 8] and GDP
range [7, 11], the row with score 7 and GDP 11 is kept (both at the closed
upper boundary for GDP) and the row with score 4 and GDP 6 is excluded
because its GDP violates the range. -/
theorem filteredData_mem_iff_witness :
    rowFinland ∈ filteredData [rowFinland, rowChad] 3 8 7 11 ∧
    rowChad ∉ filteredData [rowFinland, rowChad] 3 8 7 11 := by
  constructor
  · exact (filteredData_mem_iff [rowFinland, rowChad] 3 8 7 11 rowFinland).mpr
      ⟨by decide, ⟨7, rfl, by decide, by decide⟩, ⟨11, rfl, by decide, by decide⟩⟩
  · intro hmem
    have h := ((filteredData_mem_iff [rowFinland, rowChad] 3 8 7 11 rowChad).mp
      hmem).2.2
    obtain ⟨g, hg, hlo, _⟩ := h
    have : g = 6 := by
      have : some g = some (6 : ℚ) := hg.symm
      exact (Option.some_inj.mp this)
    rw [this] at hlo
    exact absurd hlo (by decide)

/-- C10: with a non-empty search string, a Base Table row with a missing
(`NaN`) country name is never in the Searched Table: `na=False` makes a
missing name a non-match rather than an error. -/
theorem searchedData_missing_name (df : List Row) (s : String) (r : Row)
    (hs : s ≠ "") (hn : r.countryName = none) :
    r ∉ searchedData df s := by
  intro hmem
  rw [searchedData, if_neg hs] at hmem
  have h := List.of_mem_filter (List.take_subset _ _ hmem)
  rw [hn] at h
  simp [nameMatches] at h

/-- Witness for C10 at a concrete input: the nameless row is absent from
the search result for "fin". -/
theorem searchedData_missing_name_witness :
    ("fin" ≠ "" ∧ rowNoName.countryName = none) ∧
    rowNoName ∉ searchedData [rowFinland, rowNoName] "fin" :=
  ⟨⟨by decide, rfl⟩,
    searchedData_missing_name [rowFinland, rowNoName] "fin" rowNoName
      (by decide) rfl⟩

/-- A pattern character that is no metacharacter matches exactly itself. -/
theorem patCharMatches_of_not_meta (p c : Char) (h : isMetaChar p = false) :
    patCharMatches p c = decide (p = c) := by
  have hp : p ≠ '.' := by
    intro e
    subst e
    simp [isMetaChar] at h
  simp [patCharMatches, hp]

/-- On a metacharacter-free pattern, regex prefix matching is literal
prefix matching. -/
theorem matchesAt_eq_literalAt (pat : List Char)
    (h : ∀ x ∈ pat, isMetaChar x = false) :
    ∀ hay, matchesAt pat hay = literalAt pat hay := by
  induction pat with
  | nil => intro hay; cases hay <;> rfl
  | cons p ps ih =>
    intro hay
    cases hay with
    | nil => rfl
    | cons c cs =>
      have h1 : isMetaChar p = false := h p (List.mem_cons_self p ps)
      have h2 : ∀ x ∈ ps, isMetaChar x = false := fun x hx =>
        h x (List.mem_cons_of_mem p hx)
      simp [matchesAt, literalAt, patCharMatches_of_not_meta p c h1, ih h2]

/-- On a metacharacter-free pattern, `re.search` is literal substring
occurrence. -/
theorem reSearch_eq_containsSub (pat : List Char)
    (h : ∀ x ∈ pat, isMetaChar x = false) :
    ∀ hay, reSearch pat hay = containsSub pat hay := by
  intro hay
  induction hay with
  | nil => simp [reSearch, containsSub, matchesAt_eq_literalAt pat h]
  | cons c cs ih =>
    simp [reSearch, containsSub, matchesAt_eq_literalAt pat h, ih]

/-- C3 counterexample: the search matching is pandas
`str.contains(term, regex=True)`, i.e. regular-expression search, not
literal substring containment — searching for "." returns the row named
"USA" although "usa" does not contain the character "." at all. -/
theorem searchedData_regex_cex :
    searchedData [rowUSA] "." = [rowUSA] ∧
    containsSub (lowerStr ".").toList (lowerStr "USA").toList = false := by
  decide

/-- C3 amended: for every search string free of regex metacharacters
(matching is by regular expression, so e.g. "." matches any character; on
metacharacter-free strings it coincides with case-insensitive substring
containment), the Searched Table has at most 20 rows, contains only Base
Table rows, a non-empty such search keeps only rows whose present country
name contains the search string case-insensitively, and the empty search
string returns exactly the first 20 rows of the Base Table. -/
theorem searchedData_correct (df : List Row) (s : String)
    (h : ∀ c ∈ (lowerStr s).toList, isMetaChar c = false) :
    (searchedData df s).length ≤ 20 ∧
    (∀ r ∈ searchedData df s, r ∈ df) ∧
    (s ≠ "" → ∀ r ∈ searchedData df s, ∃ nm, r.countryName = some nm ∧
      containsSub (lowerStr s).toList (lowerStr nm).toList = true) ∧
    (s = "" → searchedData df s = df.take 20) := by
  refine ⟨?_, ?_, ?_, ?_⟩
  · exact List.length_take_le _ _
  · intro r hr
    rw [searchedData] at hr
    by_cases hs : s = ""
    · rw [if_pos hs] at hr
      exact List.take_subset _ _ hr
    · rw [if_neg hs] at hr
      exact List.mem_of_mem_filter (List.take_subset _ _ hr)
  · intro hs r hr
    rw [searchedData, if_neg hs] at hr
    have hp := List.of_mem_filter (List.take_subset _ _ hr)
    cases hnm : r.countryName with
    | none =>
      rw [hnm] at hp
      simp [nameMatches] at hp
    | some nm =>
      refine ⟨nm, rfl, ?_⟩
      rw [hnm] at hp
      rw [← reSearch_eq_containsSub (lowerStr s).toList h (lowerStr nm).toList]
      simpa [nameMatches] using hp
  · intro hs
    rw [searchedData, if_pos hs]

/-- Witness for C3 (amended) at a concrete input: searching "FIN" (no
metacharacter) over a two-row table. -/
theorem searchedData_correct_witness :
    (∀ c ∈ (lowerStr "FIN").toList, isMetaChar c = false) ∧
    ((searchedData [rowFinland, rowNoName] "FIN").length ≤ 20 ∧
      (∀ r ∈ searchedData [rowFinland, rowNoName] "FIN",
        r ∈ [rowFinland, rowNoName]) ∧
      ("FIN" ≠ "" → ∀ r ∈ searchedData [rowFinland, rowNoName] "FIN",
        ∃ nm, r.countryName = some nm ∧
          containsSub (lowerStr "FIN").toList (lowerStr nm).toList = true) ∧
      ("FIN" = "" →
        searchedData [rowFinland, rowNoName] "FIN" =
          [rowFinland, rowNoName].take 20)) :=
  ⟨by decide, searchedData_correct [rowFinland, rowNoName] "FIN" (by decide)⟩

/-- Reading any column of a filled row is filling that column's entry. -/
theorem numGet_fillRow (m : NumCol → Option ℚ) (r : Row) (c : NumCol) :
    numGet c (fillRow m r) = fillVal (m c) (numGet c r) := by
  cases c <;> rfl

/-- A column with at least one present entry has a present (pandas
`skipna`) mean, namely the mean of its present values. -/
theorem colMean_of_present (xs : List (Option ℚ))
    (h : ∃ x ∈ xs, x.isSome = true) :
    colMean xs = some (meanQ (presentVals xs)) := by
  obtain ⟨x, hx, hsome⟩ := h
  obtain ⟨q, rfl⟩ := Option.isSome_iff_exists.mp hsome
  have hq : q ∈ presentVals xs := by
    rw [presentVals, List.mem_filterMap]
    exact ⟨some q, hx, rfl⟩
  have hne : (presentVals xs).length ≠ 0 := by
    intro hlen
    rw [List.length_eq_zero] at hlen
    rw [hlen] at hq
    exact absurd hq (List.not_mem_nil q)
  rw [colMean, if_neg hne]

/-- C9: after the Dataset Store load, every numeric column with at least
one present value in the input has no missing entry left, and each entry
that was missing in the input now holds the mean of that column computed
over the present values.  (A column with no present value at all has no
mean over present values; the real dataset has none such.) -/
theorem loadData_imputes (df : List Row) (c : NumCol)
    (h : ∃ x ∈ df.map (numGet c), x.isSome = true) :
    (∀ r ∈ loadData df, (numGet c r).isSome = true) ∧
    (∀ i, i < df.length → numGet c (df.getD i default) = none →
      numGet c ((loadData df).getD i default) =
        some (meanQ (presentVals (df.map (numGet c))))) := by
  constructor
  · intro r hr
    rw [loadData] at hr
    obtain ⟨r0, hr0, rfl⟩ := List.mem_map.mp hr
    rw [numGet_fillRow]
    cases hx : numGet c r0 with
    | some q => simp [fillVal]
    | none => simp [fillVal, colMean_of_present (df.map (numGet c)) h]
  · intro i hi hnone
    have hmap : (loadData df).getD i default =
        fillRow (fun c2 => colMean (df.map (numGet c2))) (df.getD i default) := by
      rw [loadData]
      simp [List.getD_eq_getElem?_getD, List.getElem?_map,
        List.getElem?_eq_getElem hi]
    rw [hmap, numGet_fillRow, hnone]
    rw [fillVal, colMean_of_present (df.map (numGet c)) h]

/-- Witness for C9 at a concrete input: a table with one missing
`Ladder score` next to present scores; after load the entry is present. -/
theorem loadData_imputes_witness :
    (∃ x ∈ [rowMissingScore, rowFinland].map (numGet NumCol.ladder),
      x.isSome = true) ∧
    (∀ r ∈ loadData [rowMissingScore, rowFinland],
      (numGet NumCol.ladder r).isSome = true) :=
  ⟨by decide, (loadData_imputes [rowMissingScore, rowFinland]
    NumCol.ladder (by decide)).1⟩

/-- C1 counterexample: along the trace write A, read, write B, read,
write A, read over the Filtered Table computation, the view recomputes 3
times although its upstream inputs take only 2 distinct values — a view
recomputes again when the upstream returns to an earlier combination,
because the cache holds only the latest generation-stamped result.  (The
reactive caching lives in the UI framework, modelled here from the spec's
own generation-stamped design, §4.4.) -/
theorem view_distinct_combination_cex :
    runOps filterView traceABA ⟨rangeA, 0⟩ ⟨none⟩ = 3 ∧
    [rangeA, rangeB, rangeA].dedup.length = 2 := by
  decide

/-- C1 amended: a read of a stale (empty-cached) view runs the underlying
computation exactly once and stamps the cache, a second read with the
upstream generation unchanged performs no computation and returns the
cached value, and every read performs at most one computation — so
reading a view twice with no upstream change computes exactly once, and
recomputation is at most once per read-triggering change (not once per
distinct upstream combination over a whole session). -/
theorem view_memoization {α β : Type} (f : α → β) (s : Signal α) :
    readCalc f s ⟨none⟩ = (f s.val, ⟨some (s.gen, f s.val)⟩, 1) ∧
    (∀ c : CalcCell β, readCalc f s (readCalc f s c).2.1 =
      ((readCalc f s c).1, (readCalc f s c).2.1, 0)) ∧
    (∀ c : CalcCell β, (readCalc f s c).2.2 ≤ 1) := by
  refine ⟨rfl, ?_, ?_⟩
  · intro c
    rcases c with ⟨_ | ⟨g, b⟩⟩
    · simp [readCalc]
    · by_cases hg : g = s.gen
      · simp [readCalc, hg]
      · simp [readCalc, hg]
  · intro c
    rcases c with ⟨_ | ⟨g, b⟩⟩
    · simp [readCalc]
    · by_cases hg : g = s.gen <;> simp [readCalc, hg]

end HappinessApp
